import Mathlib

/-!
# Reflection bridge (reflexcwrapper.cxx)

A shallow embedding of the C-linkage adapter in
`pypy/module/cppyy/src/reflexcwrapper.cxx`.  The adapter forwards every
request to the Reflex reflection library; the library is not part of the
adapter, so its operations are the fields of `ReflexLib` and every theorem
about the adapter holds for whatever those operations do.

Conventions.
* A pointer (`void*`, `char*`, a handle) is the natural number of its
  address; `0` is the null pointer.
* `int` is 32 bits wide and `size_t` 64 bits wide (LP64); the conversions the
  adapter performs between them are `toInt32` and `toSizeT`.
* A `std::string` is its list of bytes (`StdString`); it may hold zero bytes.
* Undefined behaviour inside the adapter itself (reading past the argument
  array, copying through a pointer that is not a live allocation, releasing a
  pointer twice) is the result `none`.
-/

namespace Cppyy

/-! ## Machine-level types -/

/-- One byte of memory. -/
abbrev Byte := Fin 256

/-- The bytes held by a `std::string`, in order, without a terminator. -/
abbrev StdString := List Byte

/-- An address; `0` is the null pointer. -/
abbrev Ptr := Nat

/-- The handle type `cppyy_typehandle_t` (a pointer-sized opaque value). -/
abbrev cppyy_typehandle_t := Nat

/-- The instance type `cppyy_object_t` (an address). -/
abbrev cppyy_object_t := Ptr

/-- The function pointer type `cppyy_methptrgetter_t`. -/
abbrev cppyy_methptrgetter_t := Ptr

/-- Conversion of a `size_t` value to `int`: reduction modulo `2^32` into the
signed range. -/
def toInt32 (n : Nat) : Int :=
  if n % 2 ^ 32 < 2 ^ 31 then ((n % 2 ^ 32 : Nat) : Int) else ((n % 2 ^ 32 : Nat) : Int) - 2 ^ 32

/-- Conversion of an `int` to `size_t`: reduction modulo `2^64`. -/
def toSizeT (i : Int) : Nat :=
  (i % 2 ^ 64).toNat

/-- Conversion of a `bool` to `int`. -/
def boolToInt (b : Bool) : Int :=
  if b then 1 else 0

/-! ## The reflection library -/

/-- The operations of the Reflex library that the adapter calls.  Each field is
one library entry point; `World` is the state of the process that invocations,
constructors and destructors may read and change. -/
structure ReflexLib where
  /-- State of the process outside the adapter. -/
  World : Type
  /-- The class `Reflex::Type`. -/
  Ty : Type
  /-- The class `Reflex::Member`. -/
  Member : Type
  /-- The class `Reflex::Object`. -/
  Object : Type
  /-- The class `Reflex::PropertyList`. -/
  PropertyList : Type
  /-- The class `Reflex::Any`. -/
  Any : Type
  /-- Values of the C type `double`. -/
  Double : Type
  /-- Lookup `Reflex::Type::ByName(name)`. -/
  ByName : String → Ty
  /-- Accessor `Type::Id()`. -/
  Id : Ty → cppyy_typehandle_t
  /-- Constructor `Reflex::Type((Reflex::TypeName*)handle)`. -/
  TypeOfHandle : cppyy_typehandle_t → Ty
  /-- Method `Type::Allocate()`. -/
  Allocate : Ty → World → Ptr × World
  /-- Method `Type::Deallocate(instance)`. -/
  Deallocate : Ty → Ptr → World → World
  /-- Method `Type::Destruct(instance, dealloc)`. -/
  Destruct : Ty → Ptr → Bool → World → World
  /-- Method `Type::FunctionMemberAt(nth)`. -/
  FunctionMemberAt : Ty → Nat → Member
  /-- Method `Type::FunctionMemberSize()`. -/
  FunctionMemberSize : Ty → Nat
  /-- Method `Type::HasBase(cl)`: the receiver has `cl` as a base. -/
  HasBase : Ty → Ty → Bool
  /-- Method `Type::DynamicType(obj)`. -/
  DynamicType : Ty → Object → World → Ty
  /-- Method `Type::ReturnType()`. -/
  ReturnType : Ty → Ty
  /-- Method `Type::FunctionParameterAt(nth)`. -/
  FunctionParameterAt : Ty → Nat → Ty
  /-- Method `Type::Name(mod)`. -/
  TypeName : Ty → Nat → StdString
  /-- Constructor `Reflex::Object(type, address)`. -/
  mkObject : Ty → Ptr → Object
  /-- The `Reflex::Object` value read from memory at an address, as in
  `*(const Reflex::Object*)address`. -/
  loadObject : World → Ptr → Object
  /-- Method `Member::Invoke(obj, (Object*)0, args)`. -/
  InvokeObjVoid : Member → Object → List Ptr → World → World
  /-- Method `Member::Invoke((Object*)0, args)`. -/
  InvokeVoid : Member → List Ptr → World → World
  /-- Method `Member::Invoke(obj, ret, args)` with `long& ret`: takes the
  content of the slot before the call and gives its content after it. -/
  InvokeObjLong : Member → Object → Int → List Ptr → World → Int × World
  /-- Method `Member::Invoke(ret, args)` with `long& ret`. -/
  InvokeLong : Member → Int → List Ptr → World → Int × World
  /-- Method `Member::Invoke(obj, ret, args)` with `double& ret`. -/
  InvokeObjDouble : Member → Object → Double → List Ptr → World → Double × World
  /-- Method `Member::Invoke(ret, args)` with `double& ret`. -/
  InvokeDouble : Member → Double → List Ptr → World → Double × World
  /-- Method `Member::Name()`. -/
  MemberName : Member → StdString
  /-- Method `Member::Stubfunction()`. -/
  Stubfunction : Member → Ptr
  /-- Method `Member::FunctionParameterSize()`. -/
  FunctionParameterSize : Member → Nat
  /-- Method `Member::TypeOf()`. -/
  TypeOf : Member → Ty
  /-- Method `Member::IsConstructor()`. -/
  IsConstructor : Member → Bool
  /-- Method `Member::IsStatic()`. -/
  IsStatic : Member → Bool
  /-- Method `Member::Properties()`. -/
  Properties : Member → PropertyList
  /-- Method `PropertyList::HasProperty(key)`. -/
  HasProperty : PropertyList → String → Bool
  /-- Method `PropertyList::PropertyValue(key)`. -/
  PropertyValue : PropertyList → String → Any
  /-- Function `Reflex::any_cast<void*>(value)`. -/
  any_cast_voidp : Any → Ptr
  /-- Enumerator `Reflex::FINAL`. -/
  FINAL : Nat
  /-- Enumerator `Reflex::SCOPED`. -/
  SCOPED : Nat
  /-- Enumerator `Reflex::QUALIFIED`. -/
  QUALIFIED : Nat

/-! ## Handle resolution and subtyping -/

/-- Function `cppyy_get_typehandle`. -/
def cppyy_get_typehandle (lib : ReflexLib) (class_name : String) : cppyy_typehandle_t :=
  lib.Id (lib.ByName class_name)

/-- Function `is_subtype`. -/
def is_subtype (lib : ReflexLib) (h1 h2 : cppyy_typehandle_t) : Int :=
  if h1 = h2 then 1
  else
    let t1 := lib.TypeOfHandle h1
    let t2 := lib.TypeOfHandle h2
    boolToInt (lib.HasBase t2 t1)

/-- The base relation of the database: `d` has `b` as a base. -/
def Derives (lib : ReflexLib) (d b : lib.Ty) : Prop :=
  lib.HasBase d b = true

/-- The base relation is acyclic: no chain of bases leads from a type back to
itself. -/
def AcyclicBases (lib : ReflexLib) : Prop :=
  ∀ t : lib.Ty, ¬ Relation.TransGen (Derives lib) t t

/-- Function `dynamic_type`.  The instance pointer is cast to
`const Reflex::Object*` and dereferenced. -/
def dynamic_type (lib : ReflexLib) (handle : cppyy_typehandle_t) (self : cppyy_object_t)
    (w : lib.World) : cppyy_typehandle_t :=
  let t := lib.TypeOfHandle handle
  let obj := lib.loadObject w self
  lib.Id (lib.DynamicType t obj w)

/-! ## Lifecycle -/

/-- Function `cppyy_allocate`. -/
def cppyy_allocate (lib : ReflexLib) (handle : cppyy_typehandle_t) (w : lib.World) :
    Ptr × lib.World :=
  lib.Allocate (lib.TypeOfHandle handle) w

/-- Function `cppyy_deallocate`. -/
def cppyy_deallocate (lib : ReflexLib) (handle : cppyy_typehandle_t)
    (instance_ptr : cppyy_object_t) (w : lib.World) : lib.World :=
  lib.Deallocate (lib.TypeOfHandle handle) instance_ptr w

/-- Function `cppyy_destruct`. -/
def cppyy_destruct (lib : ReflexLib) (handle : cppyy_typehandle_t) (self : cppyy_object_t)
    (w : lib.World) : lib.World :=
  let t := lib.TypeOfHandle handle
  lib.Destruct t self true w

/-! ## Invocation -/

/-- The copy loop of `std::vector<void*>(first, first + n)` over the caller's
array: `none` when it would read past the end of the array. -/
def vector_range : List Ptr → Nat → Option (List Ptr)
  | _, 0 => some []
  | [], _ + 1 => none
  | a :: rest, n + 1 =>
    match vector_range rest n with
    | none => none
    | some v => some (a :: v)

/-- The local `std::vector<void*> arguments(args, args+numargs)`: undefined for
a negative count. -/
def arguments_of (args : List Ptr) (numargs : Int) : Option (List Ptr) :=
  if numargs < 0 then none else vector_range args numargs.toNat

/-- Function `cppyy_call_v`. -/
def cppyy_call_v (lib : ReflexLib) (handle : cppyy_typehandle_t) (method_index : Int)
    (self : cppyy_object_t) (numargs : Int) (args : List Ptr) (w : lib.World) :
    Option lib.World :=
  match arguments_of args numargs with
  | none => none
  | some arguments =>
    let t := lib.TypeOfHandle handle
    let m := lib.FunctionMemberAt t (toSizeT method_index)
    if self ≠ 0 then
      let o := lib.mkObject t self
      some (lib.InvokeObjVoid m o arguments w)
    else
      some (lib.InvokeVoid m arguments w)

/-- Function `cppyy_call_l`.  The parameter `result` is the indeterminate
content of the uninitialised local `long result` before the call. -/
def cppyy_call_l (lib : ReflexLib) (handle : cppyy_typehandle_t) (method_index : Int)
    (self : cppyy_object_t) (numargs : Int) (args : List Ptr) (result : Int)
    (w : lib.World) : Option (Int × lib.World) :=
  match arguments_of args numargs with
  | none => none
  | some arguments =>
    let t := lib.TypeOfHandle handle
    let m := lib.FunctionMemberAt t (toSizeT method_index)
    if self ≠ 0 then
      let o := lib.mkObject t self
      some (lib.InvokeObjLong m o result arguments w)
    else
      some (lib.InvokeLong m result arguments w)

/-- Function `cppyy_call_d`.  The parameter `result` is the indeterminate
content of the uninitialised local `double result` before the call. -/
def cppyy_call_d (lib : ReflexLib) (handle : cppyy_typehandle_t) (method_index : Int)
    (self : cppyy_object_t) (numargs : Int) (args : List Ptr) (result : lib.Double)
    (w : lib.World) : Option (lib.Double × lib.World) :=
  match arguments_of args numargs with
  | none => none
  | some arguments =>
    let t := lib.TypeOfHandle handle
    let m := lib.FunctionMemberAt t (toSizeT method_index)
    if self ≠ 0 then
      let o := lib.mkObject t self
      some (lib.InvokeObjDouble m o result arguments w)
    else
      some (lib.InvokeDouble m result arguments w)

/-! ## The fast-path accessor -/

/-- Static function `get_methptr_getter`. -/
def get_methptr_getter (lib : ReflexLib) (m : lib.Member) : cppyy_methptrgetter_t :=
  let plist := lib.Properties m
  if lib.HasProperty plist "MethPtrGetter" then
    let value := lib.PropertyValue plist "MethPtrGetter"
    lib.any_cast_voidp value
  else
    0

/-- Function `cppyy_get_methptr_getter`. -/
def cppyy_get_methptr_getter (lib : ReflexLib) (handle : cppyy_typehandle_t)
    (method_index : Int) : cppyy_methptrgetter_t :=
  let t := lib.TypeOfHandle handle
  let m := lib.FunctionMemberAt t (toSizeT method_index)
  get_methptr_getter lib m

/-! ## The C heap -/

/-- One live allocation: its address and its cells, `none` for a cell that has
never been written. -/
structure Block where
  /-- Address returned by `malloc`. -/
  base : Ptr
  /-- Content, one entry per byte of the allocation. -/
  cells : List (Option Byte)
  deriving DecidableEq, Repr

/-- The live allocations of the C heap, most recent first. -/
abbrev Heap := List Block

/-- The placement policy of the C allocator: the address `malloc(n)` returns in
a given heap, `0` when the request fails. -/
abbrev Allocator := Heap → Nat → Ptr

/-- The live block at an address. -/
def lookup : Heap → Ptr → Option Block
  | [], _ => none
  | b :: rest, p => if b.base = p then some b else lookup rest p

/-- The addresses of the live blocks. -/
def live (hp : Heap) : List Ptr :=
  hp.map Block.base

/-- C function `malloc`: on success the heap gains one block of `n`
unwritten cells. -/
def malloc (alloc : Allocator) (n : Nat) (hp : Heap) : Ptr × Heap :=
  let p := alloc hp n
  if p = 0 then (0, hp) else (p, { base := p, cells := List.replicate n none } :: hp)

/-- Writing one byte at `dst[off]`: `none` when `dst` is not a live block or
`off` lies outside it. -/
def store : Heap → Ptr → Nat → Byte → Option Heap
  | [], _, _, _ => none
  | b :: rest, dst, off, v =>
    if b.base = dst then
      if off < b.cells.length then some ({ b with cells := b.cells.set off (some v) } :: rest)
      else none
    else
      match store rest dst off v with
      | none => none
      | some rest1 => some (b :: rest1)

/-- The bytes at `s.c_str()`: the content followed by a terminator. -/
def c_str (s : StdString) : List Byte :=
  s ++ [0]

/-- The copy loop of `strcpy` from offset `off` of the destination: each source
byte is written, the zero byte last. -/
def strcpy_from (dst : Ptr) : Heap → Nat → List Byte → Option Heap
  | _, _, [] => none
  | hp, off, c :: rest =>
    match store hp dst off c with
    | none => none
    | some hp1 => if c = 0 then some hp1 else strcpy_from dst hp1 (off + 1) rest

/-- C function `strcpy(dst, src)`. -/
def strcpy (hp : Heap) (dst : Ptr) (src : List Byte) : Option Heap :=
  strcpy_from dst hp 0 src

/-- Removal of the live block at an address. -/
def release : Heap → Ptr → Option Heap
  | [], _ => none
  | b :: rest, p =>
    if b.base = p then some rest
    else
      match release rest p with
      | none => none
      | some rest1 => some (b :: rest1)

/-- C function `free`: a no-op on the null pointer, undefined on an address that
is not a live block. -/
def free (ptr : Ptr) (hp : Heap) : Option Heap :=
  if ptr = 0 then some hp else release hp ptr

/-- Function `myfree`. -/
def myfree (ptr : Ptr) (hp : Heap) : Option Heap :=
  free ptr hp

/-- The C string stored in a run of cells: the bytes before the first zero
byte; `none` when an unwritten cell or the end comes first. -/
def read_cstring : List (Option Byte) → Option (List Byte)
  | [] => none
  | none :: _ => none
  | some c :: rest =>
    if c = 0 then some []
    else
      match read_cstring rest with
      | none => none
      | some s => some (c :: s)

/-- The C string a pointer designates. -/
def cstring_at (hp : Heap) (p : Ptr) : Option (List Byte) :=
  match lookup hp p with
  | none => none
  | some b => read_cstring b.cells

/-! ## Metadata queries -/

/-- The tail shared by the three string queries:
`malloc(name.size() + 1)`, `strcpy`, `return name_char`. -/
def copy_name (alloc : Allocator) (name : StdString) (hp : Heap) : Option (Ptr × Heap) :=
  let r := malloc alloc (name.length + 1) hp
  let name_char := r.1
  match strcpy r.2 name_char (c_str name) with
  | none => none
  | some hp2 => some (name_char, hp2)

/-- Function `method_name`. -/
def method_name (lib : ReflexLib) (alloc : Allocator) (handle : cppyy_typehandle_t)
    (method_index : Int) (hp : Heap) : Option (Ptr × Heap) :=
  let t := lib.TypeOfHandle handle
  let m := lib.FunctionMemberAt t (toSizeT method_index)
  let name := lib.MemberName m
  copy_name alloc name hp

/-- Function `result_type_method`. -/
def result_type_method (lib : ReflexLib) (alloc : Allocator) (handle : cppyy_typehandle_t)
    (method_index : Int) (hp : Heap) : Option (Ptr × Heap) :=
  let t := lib.TypeOfHandle handle
  let m := lib.FunctionMemberAt t (toSizeT method_index)
  let rt := lib.ReturnType (lib.TypeOf m)
  let name := lib.TypeName rt (lib.FINAL ||| lib.SCOPED ||| lib.QUALIFIED)
  copy_name alloc name hp

/-- Function `num_args_method`. -/
def num_args_method (lib : ReflexLib) (handle : cppyy_typehandle_t) (method_index : Int) : Int :=
  let t := lib.TypeOfHandle handle
  let m := lib.FunctionMemberAt t (toSizeT method_index)
  toInt32 (lib.FunctionParameterSize m)

/-- Function `arg_type_method`. -/
def arg_type_method (lib : ReflexLib) (alloc : Allocator) (handle : cppyy_typehandle_t)
    (method_index : Int) (arg_index : Int) (hp : Heap) : Option (Ptr × Heap) :=
  let t := lib.TypeOfHandle handle
  let m := lib.FunctionMemberAt t (toSizeT method_index)
  let aty := lib.FunctionParameterAt (lib.TypeOf m) (toSizeT arg_index)
  let name := lib.TypeName aty (lib.FINAL ||| lib.SCOPED ||| lib.QUALIFIED)
  copy_name alloc name hp

/-- Function `is_constructor`. -/
def is_constructor (lib : ReflexLib) (handle : cppyy_typehandle_t) (method_index : Int) : Int :=
  let t := lib.TypeOfHandle handle
  let m := lib.FunctionMemberAt t (toSizeT method_index)
  boolToInt (lib.IsConstructor m)

/-- Function `is_static`. -/
def is_static (lib : ReflexLib) (handle : cppyy_typehandle_t) (method_index : Int) : Int :=
  let t := lib.TypeOfHandle handle
  let m := lib.FunctionMemberAt t (toSizeT method_index)
  boolToInt (lib.IsStatic m)

/-! ## The counting query and its diagnostic dump -/

/-- One line written to `std::cout` by `num_methods`. -/
inductive Line where
  /-- The line `i << " " << m.Name()`. -/
  | member (i : Int) (name : StdString)
  /-- The line showing `m.Stubfunction()`. -/
  | stubfunction (addr : Ptr)
  /-- The line showing `get_methptr_getter(m)`. -/
  | methptrgetter (addr : Ptr)
  /-- The line `j << " " << at.Name()`. -/
  | parameter (j : Int) (name : StdString)
  deriving DecidableEq, Repr

/-- The loop `for (int i = start; i < n; i++) body` run for at most `fuel`
iterations. -/
def for_from {α : Type} (n : Int) (body : Int → α → α) : Nat → Int → α → α
  | 0, _, acc => acc
  | fuel + 1, i, acc => if i < n then for_from n body fuel (i + 1) (body i acc) else acc

/-- The loop `for (int i = 0; i < n; i++) body`; it makes `n` iterations when
`n` is positive and none otherwise, which is the fuel given. -/
def for_int {α : Type} (n : Int) (body : Int → α → α) (acc : α) : α :=
  for_from n body n.toNat 0 acc

/-- The body of the inner loop of `num_methods`. -/
def dump_parameter (lib : ReflexLib) (m : lib.Member) (j : Int) (out : List Line) : List Line :=
  let aty := lib.FunctionParameterAt (lib.TypeOf m) (toSizeT j)
  out ++ [Line.parameter j (lib.TypeName aty 0)]

/-- The body of the outer loop of `num_methods`. -/
def dump_member (lib : ReflexLib) (t : lib.Ty) (i : Int) (out : List Line) : List Line :=
  let m := lib.FunctionMemberAt t (toSizeT i)
  let out1 := out ++ [Line.member i (lib.MemberName m)]
  let out2 := out1 ++ [Line.stubfunction (lib.Stubfunction m)]
  let out3 := out2 ++ [Line.methptrgetter (get_methptr_getter lib m)]
  for_int (toInt32 (lib.FunctionParameterSize m)) (dump_parameter lib m) out3

/-- Function `num_methods`: the lines appended to `std::cout` and the value
returned. -/
def num_methods (lib : ReflexLib) (handle : cppyy_typehandle_t) (out : List Line) :
    List Line × Int :=
  let t := lib.TypeOfHandle handle
  let out1 := for_int (toInt32 (lib.FunctionMemberSize t)) (dump_member lib t) out
  (out1, toInt32 (lib.FunctionMemberSize t))

/-- The indices shown on the member lines of a dump, in the order written. -/
def visited : List Line → List Int
  | [] => []
  | Line.member i _ :: rest => i :: visited rest
  | _ :: rest => visited rest

/-- The number of parameter lines in a dump. -/
def parameter_lines : List Line → Nat
  | [] => 0
  | Line.parameter _ _ :: rest => parameter_lines rest + 1
  | _ :: rest => parameter_lines rest

/-- The lines the dump shows for one parameter of a member. -/
def parameter_entry (lib : ReflexLib) (m : lib.Member) (j : Nat) : Line :=
  Line.parameter j (lib.TypeName (lib.FunctionParameterAt (lib.TypeOf m) (toSizeT j)) 0)

/-- The lines the dump shows for the member at index `i`: its name, its stub
address, its getter address, then one line per parameter. -/
def member_entry (lib : ReflexLib) (t : lib.Ty) (i : Nat) : List Line :=
  let m := lib.FunctionMemberAt t (toSizeT i)
  [Line.member i (lib.MemberName m), Line.stubfunction (lib.Stubfunction m),
    Line.methptrgetter (get_methptr_getter lib m)]
    ++ (List.range (toInt32 (lib.FunctionParameterSize m)).toNat).map (parameter_entry lib m)

/-- The postcondition of a string query on `name` started in heap `hp`, with
`k` the length of `name` up to its first zero byte: the query returns a pointer
to one new block of `name.length + 1` cells, of which the first `k + 1` hold the
`k` bytes of `name` before its first zero byte and then a zero byte and the
others are unwritten, so that the pointer designates the string `name` cut at
its first zero byte. -/
def TruncatedCopy (name : StdString) (hp : Heap) : Option (Ptr × Heap) → Prop
  | none => False
  | some (p, hp1) =>
    let k := (name.takeWhile (fun c => c ≠ 0)).length
    ∃ cells : List (Option Byte),
      hp1 = { base := p, cells := cells } :: hp ∧
      cells.length = name.length + 1 ∧
      k ≤ name.length ∧
      name.take k = name.takeWhile (fun c => c ≠ 0) ∧
      (∀ c ∈ name.take k, c ≠ 0) ∧
      (name[k]? = some 0 ∨ k = name.length) ∧
      cells = (name.take k).map some ++ [some 0] ++ List.replicate (name.length - k) none ∧
      cstring_at hp1 p = some (name.take k) ∧
      (0 ∉ name → cstring_at hp1 p = some name)

/-- The postcondition of a string query as its caller sees it: the pointer is
not null, differs from every block live before the call, designates a
terminated string, can be released once, after which the heap is as before the
query and a second release is undefined. -/
def OwnedString (hp : Heap) : Option (Ptr × Heap) → Prop
  | none => False
  | some (p, hp1) =>
    p ≠ 0 ∧ p ∉ live hp ∧ live hp1 = p :: live hp ∧
    (∃ s, cstring_at hp1 p = some s) ∧
    myfree p hp1 = some hp ∧
    myfree p hp = none

/-! ## A small reflection database

Two classes, `Base` (handle 16) and `Derived` (handle 32, derived from `Base`).
`Base` has three function members: its constructor, which increments a global
counter; the static `answer()`, which returns 42 and carries a
`MethPtrGetter` property; and `add(int)`.  The destructor of either class
decrements the counter. -/

/-- The process state of the small database. -/
structure DemoWorld where
  /-- The global counter the constructor and destructor touch. -/
  counter : Int
  /-- Number of constructor runs so far. -/
  ctorRuns : Nat
  /-- Number of destructor runs so far. -/
  dtorRuns : Nat
  /-- Raw storage blocks reserved and not yet given back. -/
  storage : List Ptr
  /-- Address of the next block to reserve. -/
  next : Ptr
  /-- The words of memory that are set, by address. -/
  words : List (Ptr × Nat)
  /-- The runtime type recorded in the object at an address. -/
  runtime : List (Ptr × cppyy_typehandle_t)
  deriving DecidableEq, Repr

/-- The value paired with a key in an association list. -/
def assoc : List (Nat × Nat) → Nat → Option Nat
  | [], _ => none
  | (k, v) :: rest, a => if k = a then some v else assoc rest a

/-- The value paired with a name in a property list. -/
def property : List (String × Ptr) → String → Option Ptr
  | [], _ => none
  | (k, v) :: rest, key => if k = key then some v else property rest key

/-- Modelled from the spec: the reflection library over a two-class database.
`Allocate` reserves raw storage and runs no constructor, `Destruct` runs the
destructor in place and then frees the storage, `Deallocate` frees without
running a destructor (section 4.2); `HasBase` is the base relation of the
database; `DynamicType` is the runtime type recorded at the address of the
object it is given, or the static type when there is none; an object is the pair
of its type and its address, and reading an object from memory takes the type
from the word at the address and the address field from the word 16 bytes on. -/
def demoLib : ReflexLib where
  World := DemoWorld
  Ty := Nat
  Member := Nat × Nat
  Object := Nat × Ptr
  PropertyList := List (String × Ptr)
  Any := Ptr
  Double := Int
  ByName := fun n => if n = "Base" then 16 else if n = "Derived" then 32 else 0
  Id := fun t => t
  TypeOfHandle := fun h => h
  Allocate := fun _ w => (w.next, { w with storage := w.next :: w.storage, next := w.next + 64 })
  Deallocate := fun _ p w => { w with storage := w.storage.erase p }
  Destruct := fun _ p dealloc w =>
    { w with
      counter := w.counter - 1
      dtorRuns := w.dtorRuns + 1
      storage := if dealloc then w.storage.erase p else w.storage }
  FunctionMemberAt := fun t i => (t, i)
  FunctionMemberSize := fun t => if t = 16 then 3 else if t = 32 then 1 else 0
  HasBase := fun t cl => t = 32 ∧ cl = 16
  DynamicType := fun t obj w =>
    match assoc w.runtime obj.2 with
    | some d => d
    | none => t
  ReturnType := fun t => t
  FunctionParameterAt := fun t _ => t
  TypeName := fun t _ => if t = 16 then [66, 97, 115, 101] else [105, 110, 116]
  mkObject := fun t p => (t, p)
  loadObject := fun w p => ((assoc w.words p).getD 0, (assoc w.words (p + 16)).getD 0)
  InvokeObjVoid := fun m _ _ w =>
    if m = (16, 0) then { w with counter := w.counter + 1, ctorRuns := w.ctorRuns + 1 } else w
  InvokeVoid := fun _ _ w => w
  InvokeObjLong := fun _ _ r _ w => (r, w)
  InvokeLong := fun m r _ w => if m = (16, 1) then (42, w) else (r, w)
  InvokeObjDouble := fun _ _ r _ w => (r, w)
  InvokeDouble := fun _ r _ w => (r, w)
  MemberName := fun m =>
    if m = (16, 0) then [66, 97, 115, 101]
    else if m = (16, 1) then [97, 110, 115, 119, 101, 114]
    else [97, 100, 100]
  Stubfunction := fun m => 8192 + 16 * m.2
  FunctionParameterSize := fun m => if m = (16, 2) then 1 else 0
  TypeOf := fun m => m.1
  IsConstructor := fun m => m.2 = 0
  IsStatic := fun m => m = (16, 1)
  Properties := fun m => if m = (16, 1) then [("Doc", 7), ("MethPtrGetter", 4096)] else []
  HasProperty := fun pl key => (property pl key).isSome
  PropertyValue := fun pl key => (property pl key).getD 0
  any_cast_voidp := fun v => v
  FINAL := 1
  SCOPED := 4
  QUALIFIED := 2

/-- A process state of the small database: counter at zero, nothing reserved,
and one live object of class `Derived` at address 4096 whose first word is its
virtual table pointer. -/
def demoWorld : DemoWorld where
  counter := 0
  ctorRuns := 0
  dtorRuns := 0
  storage := []
  next := 1024
  words := [(4096, 28672), (4104, 5), (4112, 0)]
  runtime := [(4096, 32)]

/-- A placement policy: one past the highest live address. -/
def demoAlloc : Allocator :=
  fun hp _ => (live hp).foldr max 0 + 1

/-! ## Theorems -/

/-- C1. `is_subtype(h1, h2)` is non-zero exactly when the handles are equal or
the type of `h2` has the type of `h1` as a base according to the library's
`HasBase`; it is `0` exactly otherwise; its value is always `0` or `1`; and on
equal handles it is `1` whatever the library is, so the hierarchy is not
consulted. -/
theorem is_subtype_spec (lib lib2 : ReflexLib) (h1 h2 : cppyy_typehandle_t) :
    (is_subtype lib h1 h2 ≠ 0 ↔
      (h1 = h2 ∨ lib.HasBase (lib.TypeOfHandle h2) (lib.TypeOfHandle h1) = true)) ∧
    (is_subtype lib h1 h2 = 0 ↔
      ¬ (h1 = h2 ∨ lib.HasBase (lib.TypeOfHandle h2) (lib.TypeOfHandle h1) = true)) ∧
    (is_subtype lib h1 h2 = 0 ∨ is_subtype lib h1 h2 = 1) ∧
    is_subtype lib2 h1 h1 = 1 := by
  unfold is_subtype boolToInt
  by_cases h : h1 = h2
  · simp [h]
  · cases hb : lib.HasBase (lib.TypeOfHandle h2) (lib.TypeOfHandle h1) <;> simp [h, hb]

/-- C2. When the type named `nameD` has the type named `nameB` as a base, handles
round-trip to their types, and the base relation is acyclic, then `is_subtype(handle(B), handle(D))` is `1` and
`is_subtype(handle(D), handle(B))` is `0` unless the two handles are equal. -/
theorem is_subtype_derived (lib : ReflexLib) (nameB nameD : String)
    (hB : lib.TypeOfHandle (cppyy_get_typehandle lib nameB) = lib.ByName nameB)
    (hD : lib.TypeOfHandle (cppyy_get_typehandle lib nameD) = lib.ByName nameD)
    (hbase : lib.HasBase (lib.ByName nameD) (lib.ByName nameB) = true)
    (hacyclic : AcyclicBases lib) :
    is_subtype lib (cppyy_get_typehandle lib nameB) (cppyy_get_typehandle lib nameD) = 1 ∧
    (cppyy_get_typehandle lib nameD ≠ cppyy_get_typehandle lib nameB →
      is_subtype lib (cppyy_get_typehandle lib nameD) (cppyy_get_typehandle lib nameB) = 0) := by
  have hrev : lib.HasBase (lib.ByName nameB) (lib.ByName nameD) = false := by
    cases hb : lib.HasBase (lib.ByName nameB) (lib.ByName nameD)
    · rfl
    · have h1 : Derives lib (lib.ByName nameD) (lib.ByName nameB) := hbase
      have h2 : Derives lib (lib.ByName nameB) (lib.ByName nameD) := hb
      exact absurd (Relation.TransGen.tail (Relation.TransGen.single h1) h2) (hacyclic _)
  constructor
  · unfold is_subtype
    by_cases h : cppyy_get_typehandle lib nameB = cppyy_get_typehandle lib nameD
    · simp [h]
    · simp [h, hB, hD, hbase, boolToInt]
  · intro hne
    unfold is_subtype
    simp [hne, hB, hD, hrev, boolToInt]

/-- The base relation of the small database only relates `Derived` to `Base`. -/
theorem demo_base_chain (a b : Nat)
    (h : Relation.TransGen (Derives demoLib) a b) : a = 32 ∧ b = 16 := by
  induction h with
  | single hab => simpa [Derives, demoLib] using hab
  | @tail x y _ hbc ih =>
    have h2 : x = 32 ∧ y = 16 := by simpa [Derives, demoLib] using hbc
    omega

/-- Witness for C2 in the small database: `Derived` has `Base` as a base. -/
theorem is_subtype_derived_witness :
    is_subtype demoLib (cppyy_get_typehandle demoLib "Base")
        (cppyy_get_typehandle demoLib "Derived") = 1 ∧
    (cppyy_get_typehandle demoLib "Derived" ≠ cppyy_get_typehandle demoLib "Base" →
      is_subtype demoLib (cppyy_get_typehandle demoLib "Derived")
        (cppyy_get_typehandle demoLib "Base") = 0) :=
  is_subtype_derived demoLib "Base" "Derived" rfl rfl (by decide)
    (fun t h => by have := demo_base_chain t t h; omega)

/-- The vector copy reads exactly the first `n` entries of an array that has at
least `n` entries. -/
theorem vector_range_take (args : List Ptr) (n : Nat) (h : n ≤ args.length) :
    vector_range args n = some (args.take n) := by
  induction n generalizing args with
  | zero => cases args <;> simp [vector_range]
  | succ k ih =>
    cases args with
    | nil => simp at h
    | cons a rest =>
      have hk : k ≤ rest.length := by simpa using h
      simp [vector_range, ih rest hk]

/-- The vector copy is undefined exactly when the array is too short. -/
theorem vector_range_none (args : List Ptr) (n : Nat) (h : args.length < n) :
    vector_range args n = none := by
  induction n generalizing args with
  | zero => simp at h
  | succ k ih =>
    cases args with
    | nil => simp [vector_range]
    | cons a rest =>
      have hk : rest.length < k := by simpa using h
      simp [vector_range, ih rest hk]

/-- The local vector of an entry point called with a count in range. -/
theorem arguments_of_take (args : List Ptr) (numargs : Int) (hn : 0 ≤ numargs)
    (hlen : numargs.toNat ≤ args.length) :
    arguments_of args numargs = some (args.take numargs.toNat) := by
  unfold arguments_of
  rw [if_neg (by omega)]
  exact vector_range_take args numargs.toNat hlen

/-- C3. For `numargs ≥ 0` and an array of at least `numargs` entries, each of
`cppyy_call_v`, `cppyy_call_l` and `cppyy_call_d` makes one library invocation
of the function member at `method_index` of the handle's type; with a non-null
instance pointer it is the instance invocation on the object built from that
type and the pointer, with a null one the static invocation; the argument list
passed has length `numargs` and its entry `j` is `args[j]`. -/
theorem cppyy_call_dispatch (lib : ReflexLib) (handle : cppyy_typehandle_t) (method_index : Int)
    (self : cppyy_object_t) (numargs : Int) (args : List Ptr) (rl : Int) (rd : lib.Double)
    (w : lib.World) (hn : 0 ≤ numargs) (hlen : numargs.toNat ≤ args.length) :
    ∃ arguments : List Ptr,
      ((arguments.length : Int) = numargs ∧
        ∀ j : Nat, j < numargs.toNat → arguments[j]? = args[j]?) ∧
      (self ≠ 0 →
        cppyy_call_v lib handle method_index self numargs args w =
          some (lib.InvokeObjVoid
            (lib.FunctionMemberAt (lib.TypeOfHandle handle) (toSizeT method_index))
            (lib.mkObject (lib.TypeOfHandle handle) self) arguments w) ∧
        cppyy_call_l lib handle method_index self numargs args rl w =
          some (lib.InvokeObjLong
            (lib.FunctionMemberAt (lib.TypeOfHandle handle) (toSizeT method_index))
            (lib.mkObject (lib.TypeOfHandle handle) self) rl arguments w) ∧
        cppyy_call_d lib handle method_index self numargs args rd w =
          some (lib.InvokeObjDouble
            (lib.FunctionMemberAt (lib.TypeOfHandle handle) (toSizeT method_index))
            (lib.mkObject (lib.TypeOfHandle handle) self) rd arguments w)) ∧
      (self = 0 →
        cppyy_call_v lib handle method_index self numargs args w =
          some (lib.InvokeVoid
            (lib.FunctionMemberAt (lib.TypeOfHandle handle) (toSizeT method_index))
            arguments w) ∧
        cppyy_call_l lib handle method_index self numargs args rl w =
          some (lib.InvokeLong
            (lib.FunctionMemberAt (lib.TypeOfHandle handle) (toSizeT method_index))
            rl arguments w) ∧
        cppyy_call_d lib handle method_index self numargs args rd w =
          some (lib.InvokeDouble
            (lib.FunctionMemberAt (lib.TypeOfHandle handle) (toSizeT method_index))
            rd arguments w)) := by
  refine ⟨args.take numargs.toNat, ⟨?_, ?_⟩, ?_, ?_⟩
  · rw [List.length_take, Nat.min_eq_left hlen]
    exact Int.toNat_of_nonneg hn
  · intro j hj
    rw [List.getElem?_take, if_pos hj]
  · intro hs
    simp [cppyy_call_v, cppyy_call_l, cppyy_call_d, arguments_of_take args numargs hn hlen, hs]
  · intro hs
    simp [cppyy_call_v, cppyy_call_l, cppyy_call_d, arguments_of_take args numargs hn hlen, hs]

/-- Witness for C3: the instance method `add` of `Base` (index 2) called on the
object at address 4096 with the first two entries of a three-entry array. -/
theorem cppyy_call_dispatch_witness :
    ∃ arguments : List Ptr,
      ((arguments.length : Int) = 2 ∧
        ∀ j : Nat, j < (2 : Int).toNat → arguments[j]? = [700, 800, 900][j]?) ∧
      ((4096 : Nat) ≠ 0 →
        cppyy_call_v demoLib 16 2 4096 2 [700, 800, 900] demoWorld =
          some (demoLib.InvokeObjVoid
            (demoLib.FunctionMemberAt (demoLib.TypeOfHandle 16) (toSizeT 2))
            (demoLib.mkObject (demoLib.TypeOfHandle 16) 4096) arguments demoWorld) ∧
        cppyy_call_l demoLib 16 2 4096 2 [700, 800, 900] 0 demoWorld =
          some (demoLib.InvokeObjLong
            (demoLib.FunctionMemberAt (demoLib.TypeOfHandle 16) (toSizeT 2))
            (demoLib.mkObject (demoLib.TypeOfHandle 16) 4096) 0 arguments demoWorld) ∧
        cppyy_call_d demoLib 16 2 4096 2 [700, 800, 900] (0 : Int) demoWorld =
          some (demoLib.InvokeObjDouble
            (demoLib.FunctionMemberAt (demoLib.TypeOfHandle 16) (toSizeT 2))
            (demoLib.mkObject (demoLib.TypeOfHandle 16) 4096) (0 : Int) arguments demoWorld)) ∧
      ((4096 : Nat) = 0 →
        cppyy_call_v demoLib 16 2 4096 2 [700, 800, 900] demoWorld =
          some (demoLib.InvokeVoid
            (demoLib.FunctionMemberAt (demoLib.TypeOfHandle 16) (toSizeT 2))
            arguments demoWorld) ∧
        cppyy_call_l demoLib 16 2 4096 2 [700, 800, 900] 0 demoWorld =
          some (demoLib.InvokeLong
            (demoLib.FunctionMemberAt (demoLib.TypeOfHandle 16) (toSizeT 2))
            0 arguments demoWorld) ∧
        cppyy_call_d demoLib 16 2 4096 2 [700, 800, 900] (0 : Int) demoWorld =
          some (demoLib.InvokeDouble
            (demoLib.FunctionMemberAt (demoLib.TypeOfHandle 16) (toSizeT 2))
            (0 : Int) arguments demoWorld)) :=
  cppyy_call_dispatch demoLib 16 2 4096 2 [700, 800, 900] 0 (0 : Int) demoWorld
    (by decide) (by decide)

/-- C4. When the library's static invocation of the member at `method_index`
with no arguments stores `k` in the result slot, `cppyy_call_l` with a null
instance pointer and `numargs = 0` returns the slot content that invocation
left, which is `k`, for any argument array and any prior content of the slot. -/
theorem cppyy_call_l_static_value (lib : ReflexLib) (handle : cppyy_typehandle_t)
    (method_index : Int) (args : List Ptr) (result : Int) (w : lib.World) (k : Int)
    (hk : ∀ (r : Int) (w1 : lib.World),
      (lib.InvokeLong (lib.FunctionMemberAt (lib.TypeOfHandle handle) (toSizeT method_index))
        r [] w1).1 = k) :
    cppyy_call_l lib handle method_index 0 0 args result w =
      some (lib.InvokeLong (lib.FunctionMemberAt (lib.TypeOfHandle handle) (toSizeT method_index))
        result [] w) ∧
    (cppyy_call_l lib handle method_index 0 0 args result w).map Prod.fst = some k := by
  have h0 : arguments_of args 0 = some [] := by
    cases args <;> simp [arguments_of, vector_range]
  have h1 : cppyy_call_l lib handle method_index 0 0 args result w =
      some (lib.InvokeLong (lib.FunctionMemberAt (lib.TypeOfHandle handle) (toSizeT method_index))
        result [] w) := by
    simp [cppyy_call_l, h0]
  refine ⟨h1, ?_⟩
  rw [h1]
  simp [hk result w]

/-- Witness for C4: the static `answer()` of `Base` (index 1) returns 42 through
`cppyy_call_l`, with an empty array and a slot that held 7. -/
theorem cppyy_call_l_static_value_witness :
    cppyy_call_l demoLib 16 1 0 0 [] 7 demoWorld =
      some (demoLib.InvokeLong (demoLib.FunctionMemberAt (demoLib.TypeOfHandle 16) (toSizeT 1))
        7 [] demoWorld) ∧
    (cppyy_call_l demoLib 16 1 0 0 [] 7 demoWorld).map Prod.fst = some 42 :=
  cppyy_call_l_static_value demoLib 16 1 [] 7 demoWorld 42 (fun _ _ => rfl)

/-- C5. `cppyy_get_methptr_getter` returns the null pointer exactly when the
member's property list has no `MethPtrGetter` property or the pointer stored
under that key is null; when the property is present it returns the pointer
stored under that key; and its result is the same for any other behaviour of
the property list that agrees on that one key. -/
theorem cppyy_get_methptr_getter_spec (lib : ReflexLib) (handle : cppyy_typehandle_t)
    (method_index : Int) :
    (cppyy_get_methptr_getter lib handle method_index = 0 ↔
      (lib.HasProperty
          (lib.Properties (lib.FunctionMemberAt (lib.TypeOfHandle handle) (toSizeT method_index)))
          "MethPtrGetter" = false ∨
        lib.any_cast_voidp (lib.PropertyValue
          (lib.Properties (lib.FunctionMemberAt (lib.TypeOfHandle handle) (toSizeT method_index)))
          "MethPtrGetter") = 0)) ∧
    (lib.HasProperty
        (lib.Properties (lib.FunctionMemberAt (lib.TypeOfHandle handle) (toSizeT method_index)))
        "MethPtrGetter" = true →
      cppyy_get_methptr_getter lib handle method_index =
        lib.any_cast_voidp (lib.PropertyValue
          (lib.Properties (lib.FunctionMemberAt (lib.TypeOfHandle handle) (toSizeT method_index)))
          "MethPtrGetter")) ∧
    (∀ (has : lib.PropertyList → String → Bool) (value : lib.PropertyList → String → lib.Any),
      has (lib.Properties (lib.FunctionMemberAt (lib.TypeOfHandle handle) (toSizeT method_index)))
          "MethPtrGetter" =
        lib.HasProperty
          (lib.Properties (lib.FunctionMemberAt (lib.TypeOfHandle handle) (toSizeT method_index)))
          "MethPtrGetter" →
      value (lib.Properties (lib.FunctionMemberAt (lib.TypeOfHandle handle) (toSizeT method_index)))
          "MethPtrGetter" =
        lib.PropertyValue
          (lib.Properties (lib.FunctionMemberAt (lib.TypeOfHandle handle) (toSizeT method_index)))
          "MethPtrGetter" →
      cppyy_get_methptr_getter { lib with HasProperty := has, PropertyValue := value }
          handle method_index =
        cppyy_get_methptr_getter lib handle method_index) := by
  refine ⟨?_, ?_, ?_⟩
  · unfold cppyy_get_methptr_getter get_methptr_getter
    cases hp : lib.HasProperty
        (lib.Properties (lib.FunctionMemberAt (lib.TypeOfHandle handle) (toSizeT method_index)))
        "MethPtrGetter" <;> simp [hp]
  · intro hp
    unfold cppyy_get_methptr_getter get_methptr_getter
    simp [hp]
  · intro has value h1 h2
    unfold cppyy_get_methptr_getter get_methptr_getter
    simp only [h1, h2]

/-- Witness for C5: the static `answer()` of `Base` carries the getter 4096
next to another property, and the constructor carries none. -/
theorem cppyy_get_methptr_getter_witness :
    cppyy_get_methptr_getter demoLib 16 1 = 4096 ∧ cppyy_get_methptr_getter demoLib 16 0 = 0 :=
  ⟨(cppyy_get_methptr_getter_spec demoLib 16 1).2.1 (by decide), by decide⟩

/-- C6, as the code has it. For a type whose constructor member increments and
whose destructor decrements a counter, where the library's `Allocate` reserves
storage without running a constructor: `cppyy_allocate` leaves the counter as
it was, and `cppyy_destruct` on the returned instance then lowers it by one, so
the pair ends one below the start; with one `cppyy_call_v` of the constructor
member on the instance in between, the counter goes up by one and then down by
one and ends at its starting value. -/
theorem allocate_destruct_counter (lib : ReflexLib) (counter : lib.World → Int)
    (handle : cppyy_typehandle_t) (ctor_index : Int) (w : lib.World)
    (hAllocate : ∀ w1, counter (lib.Allocate (lib.TypeOfHandle handle) w1).2 = counter w1)
    (hConstructor : ∀ o args w1,
      counter (lib.InvokeObjVoid
        (lib.FunctionMemberAt (lib.TypeOfHandle handle) (toSizeT ctor_index)) o args w1) =
        counter w1 + 1)
    (hDestructor : ∀ p w1,
      counter (lib.Destruct (lib.TypeOfHandle handle) p true w1) = counter w1 - 1)
    (hInstance : (cppyy_allocate lib handle w).1 ≠ 0) :
    counter (cppyy_allocate lib handle w).2 = counter w ∧
    counter (cppyy_destruct lib handle (cppyy_allocate lib handle w).1
      (cppyy_allocate lib handle w).2) = counter w - 1 ∧
    ∃ w2, cppyy_call_v lib handle ctor_index (cppyy_allocate lib handle w).1 0 []
        (cppyy_allocate lib handle w).2 = some w2 ∧
      counter w2 = counter w + 1 ∧
      counter (cppyy_destruct lib handle (cppyy_allocate lib handle w).1 w2) = counter w := by
  have h0 : arguments_of [] 0 = some [] := by simp [arguments_of, vector_range]
  refine ⟨hAllocate w, ?_, ?_⟩
  · unfold cppyy_destruct
    rw [hDestructor]
    unfold cppyy_allocate
    rw [hAllocate]
  · refine ⟨lib.InvokeObjVoid
        (lib.FunctionMemberAt (lib.TypeOfHandle handle) (toSizeT ctor_index))
        (lib.mkObject (lib.TypeOfHandle handle) (cppyy_allocate lib handle w).1) []
        (cppyy_allocate lib handle w).2, ?_, ?_, ?_⟩
    · simp only [cppyy_call_v, h0]
      rw [if_pos hInstance]
    · rw [hConstructor]
      exact congrArg (· + 1) (hAllocate w)
    · unfold cppyy_destruct
      rw [hDestructor, hConstructor]
      have := hAllocate w
      unfold cppyy_allocate
      omega

/-- Witness for C6 in the small database, on class `Base` and its constructor
at index 0. -/
theorem allocate_destruct_counter_witness :
    DemoWorld.counter (cppyy_allocate demoLib 16 demoWorld).2 = DemoWorld.counter demoWorld ∧
    DemoWorld.counter (cppyy_destruct demoLib 16 (cppyy_allocate demoLib 16 demoWorld).1
      (cppyy_allocate demoLib 16 demoWorld).2) = DemoWorld.counter demoWorld - 1 ∧
    ∃ w2, cppyy_call_v demoLib 16 0 (cppyy_allocate demoLib 16 demoWorld).1 0 []
        (cppyy_allocate demoLib 16 demoWorld).2 = some w2 ∧
      DemoWorld.counter w2 = DemoWorld.counter demoWorld + 1 ∧
      DemoWorld.counter (cppyy_destruct demoLib 16 (cppyy_allocate demoLib 16 demoWorld).1 w2) =
        DemoWorld.counter demoWorld :=
  allocate_destruct_counter demoLib DemoWorld.counter 16 0 demoWorld
    (fun _ => rfl) (fun _ _ w1 => rfl) (fun _ w1 => rfl) (by decide)

/-- C6 as stated fails: in the small database, `cppyy_allocate` on `Base`
followed by `cppyy_destruct` on the returned instance runs no constructor and
one destructor, and leaves the counter at -1 instead of its starting value 0. -/
theorem allocate_destruct_counterexample :
    (cppyy_destruct demoLib 16 (cppyy_allocate demoLib 16 demoWorld).1
        (cppyy_allocate demoLib 16 demoWorld).2).ctorRuns = 0 ∧
    (cppyy_destruct demoLib 16 (cppyy_allocate demoLib 16 demoWorld).1
        (cppyy_allocate demoLib 16 demoWorld).2).dtorRuns = 1 ∧
    (cppyy_allocate demoLib 16 demoWorld).2.counter = 0 ∧
    (cppyy_destruct demoLib 16 (cppyy_allocate demoLib 16 demoWorld).1
        (cppyy_allocate demoLib 16 demoWorld).2).counter = -1 ∧
    ¬ ((cppyy_destruct demoLib 16 (cppyy_allocate demoLib 16 demoWorld).1
        (cppyy_allocate demoLib 16 demoWorld).2).counter = demoWorld.counter) := by
  decide

/-- C9 on the code: in the small database the object at address 4096 is a live
`Derived`, and the object reference the invocation entry points build for it
from the handle of `Base` has dynamic type `Derived` (handle 32); but
`dynamic_type` reads a `Reflex::Object` out of the instance's own bytes and
returns the handle of `Base` (16). -/
theorem dynamic_type_reads_instance_bytes :
    demoLib.Id (demoLib.DynamicType (demoLib.TypeOfHandle 16)
      (demoLib.mkObject (demoLib.TypeOfHandle 16) 4096) demoWorld) = 32 ∧
    demoLib.loadObject demoWorld 4096 = (28672, 0) ∧
    dynamic_type demoLib 16 4096 demoWorld = 16 :=
  ⟨rfl, rfl, rfl⟩

/-- The value of `dynamic_type` for every library: the identifier of the
dynamic type of the object value stored in memory at `self`. -/
theorem dynamic_type_eq (lib : ReflexLib) (handle : cppyy_typehandle_t) (self : cppyy_object_t)
    (w : lib.World) :
    dynamic_type lib handle self w =
      lib.Id (lib.DynamicType (lib.TypeOfHandle handle) (lib.loadObject w self) w) :=
  rfl

/-! ### Loops -/

/-- A counting loop whose bound is `fuel` steps away makes exactly those steps. -/
theorem for_from_range {α : Type} (body : Int → α → α) (fuel : Nat) (i : Int) (acc : α) :
    for_from (i + fuel) body fuel i acc =
      (List.range fuel).foldl (fun a j => body (i + (j : Nat)) a) acc := by
  induction fuel generalizing i acc with
  | zero => simp [for_from]
  | succ k ih =>
    have hlt : i < i + ((k + 1 : Nat) : Int) := by omega
    have hn : i + ((k + 1 : Nat) : Int) = (i + 1) + (k : Nat) := by omega
    rw [for_from, if_pos hlt, hn, ih, List.range_succ_eq_map, List.foldl_cons, List.foldl_map]
    simp only [Nat.cast_zero, add_zero, Nat.cast_succ]
    congr 1
    funext a j
    congr 1
    omega

/-- More fuel than the distance to the bound changes nothing: the loop has
left through its condition. -/
theorem for_from_fuel {α : Type} (n : Int) (body : Int → α → α) (fuel : Nat) (i : Int) (acc : α)
    (h : (n - i).toNat ≤ fuel) :
    for_from n body fuel i acc = for_from n body (n - i).toNat i acc := by
  induction fuel generalizing i acc with
  | zero =>
    have h0 : (n - i).toNat = 0 := by omega
    rw [h0]
  | succ k ih =>
    by_cases hlt : i < n
    · have hs : (n - i).toNat = (n - (i + 1)).toNat + 1 := by omega
      rw [hs, for_from, for_from, if_pos hlt, if_pos hlt]
      exact ih (i + 1) (body i acc) (by omega)
    · have h0 : (n - i).toNat = 0 := by omega
      rw [h0]
      simp [for_from, hlt]

/-- The loop `for (int i = 0; i < n; i++)` folds its body over `0, ..., n-1`. -/
theorem for_int_range {α : Type} (n : Int) (body : Int → α → α) (acc : α) :
    for_int n body acc = (List.range n.toNat).foldl (fun a j => body (j : Nat) a) acc := by
  unfold for_int
  by_cases hn : 0 ≤ n
  · have h := for_from_range body n.toNat 0 acc
    have e : (0 : Int) + (n.toNat : Int) = n := by omega
    rw [e] at h
    rw [h]
    congr 1
    funext a j
    simp
  · have h0 : n.toNat = 0 := by omega
    rw [h0]
    simp [for_from]

/-- Appending one line per element is appending the mapped list. -/
theorem foldl_append_singleton {β : Type} (g : Nat → β) (l : List Nat) (acc : List β) :
    l.foldl (fun a j => a ++ [g j]) acc = acc ++ l.map g := by
  induction l generalizing acc with
  | nil => simp
  | cons x rest ih => simp [ih]

/-- Appending one group of lines per element is appending the concatenation. -/
theorem foldl_append_group {β : Type} (g : Nat → List β) (l : List Nat) (acc : List β) :
    l.foldl (fun a j => a ++ g j) acc = acc ++ l.flatMap g := by
  induction l generalizing acc with
  | nil => simp
  | cons x rest ih => simp [ih]

/-- One pass of the outer loop body appends the entry of that member. -/
theorem dump_member_eq (lib : ReflexLib) (t : lib.Ty) (i : Nat) (out : List Line) :
    dump_member lib t i out = out ++ member_entry lib t i := by
  unfold dump_member member_entry
  simp only [for_int_range]
  have hb : (fun (a : List Line) (j : Nat) =>
      dump_parameter lib (lib.FunctionMemberAt t (toSizeT i)) (j : Nat) a) =
      fun a j => a ++ [parameter_entry lib (lib.FunctionMemberAt t (toSizeT i)) j] := by
    funext a j
    rfl
  rw [hb, foldl_append_singleton]
  simp

/-- The member lines of a run of entries show the indices of the run. -/
theorem visited_entries (lib : ReflexLib) (t : lib.Ty) (l : List Nat) :
    visited (l.flatMap (member_entry lib t)) = l.map Int.ofNat := by
  have hpar : ∀ (m : lib.Member) (ps : List Nat) (rest : List Line),
      visited (ps.map (parameter_entry lib m) ++ rest) = visited rest := by
    intro m ps rest
    induction ps with
    | nil => rfl
    | cons x xs ih => simpa [parameter_entry, visited] using ih
  induction l with
  | nil => rfl
  | cons x xs ih =>
    have hx : member_entry lib t x ++ xs.flatMap (member_entry lib t) =
        Line.member x (lib.MemberName (lib.FunctionMemberAt t (toSizeT x))) ::
          Line.stubfunction (lib.Stubfunction (lib.FunctionMemberAt t (toSizeT x))) ::
          Line.methptrgetter (get_methptr_getter lib (lib.FunctionMemberAt t (toSizeT x))) ::
          ((List.range (toInt32 (lib.FunctionParameterSize
              (lib.FunctionMemberAt t (toSizeT x)))).toNat).map
            (parameter_entry lib (lib.FunctionMemberAt t (toSizeT x))) ++
            xs.flatMap (member_entry lib t)) := by
      simp [member_entry]
    rw [List.flatMap_cons, hx, List.map_cons]
    simp only [visited, hpar, ih]
    rfl

/-- The entry of a member has one parameter line per parameter. -/
theorem parameter_lines_entry (lib : ReflexLib) (t : lib.Ty) (i : Nat) :
    parameter_lines (member_entry lib t i) =
      (toInt32 (lib.FunctionParameterSize (lib.FunctionMemberAt t (toSizeT i)))).toNat := by
  have hpar : ∀ (m : lib.Member) (ps : List Nat),
      parameter_lines (ps.map (parameter_entry lib m)) = ps.length := by
    intro m ps
    induction ps with
    | nil => rfl
    | cons x xs ih => simp [parameter_entry, parameter_lines] at ih ⊢; exact ih
  simp [member_entry, parameter_lines, hpar]

/-- A count below `2^31` survives the conversion to `int`. -/
theorem toInt32_small (n : Nat) (h : n < 2 ^ 31) : toInt32 n = n := by
  unfold toInt32
  have h1 : n % 2 ^ 32 = n := Nat.mod_eq_of_lt (by omega)
  rw [h1, if_pos h]

/-- C7. `num_methods` returns the library's `FunctionMemberSize` of the
handle's type converted to `int`, which is that number itself when it is below
`2^31`; the dump it appends to the output is, for each index `0, 1, ...,
count-1` once and in increasing order, the entry of the member at that index, so
the dump has `count` member lines; the entry at index `i` shows the name that
`method_name` copies for `i` and as many parameter lines as `num_args_method`
gives for `i`; and the value returned is the same whatever was dumped. -/
theorem num_methods_spec (lib : ReflexLib) (handle : cppyy_typehandle_t) (out : List Line) :
    (num_methods lib handle out).2 =
      toInt32 (lib.FunctionMemberSize (lib.TypeOfHandle handle)) ∧
    (lib.FunctionMemberSize (lib.TypeOfHandle handle) < 2 ^ 31 →
      (num_methods lib handle out).2 =
        (lib.FunctionMemberSize (lib.TypeOfHandle handle) : Int)) ∧
    (num_methods lib handle out).1 =
      out ++ (List.range (num_methods lib handle out).2.toNat).flatMap
        (member_entry lib (lib.TypeOfHandle handle)) ∧
    visited ((num_methods lib handle out).1.drop out.length) =
      (List.range (num_methods lib handle out).2.toNat).map Int.ofNat ∧
    (visited ((num_methods lib handle out).1.drop out.length)).length =
      (num_methods lib handle out).2.toNat ∧
    (∀ i : Nat, i < (num_methods lib handle out).2.toNat →
      (∀ (alloc : Allocator) (hp : Heap),
        method_name lib alloc handle i hp =
          copy_name alloc
            (lib.MemberName (lib.FunctionMemberAt (lib.TypeOfHandle handle) (toSizeT i))) hp) ∧
      (member_entry lib (lib.TypeOfHandle handle) i).head? =
        some (Line.member i
          (lib.MemberName (lib.FunctionMemberAt (lib.TypeOfHandle handle) (toSizeT i)))) ∧
      parameter_lines (member_entry lib (lib.TypeOfHandle handle) i) =
        (num_args_method lib handle i).toNat) ∧
    (∀ out2 : List Line, (num_methods lib handle out2).2 = (num_methods lib handle out).2) := by
  have hret : ∀ o : List Line, (num_methods lib handle o).2 =
      toInt32 (lib.FunctionMemberSize (lib.TypeOfHandle handle)) := fun _ => rfl
  have hbody : (fun (a : List Line) (j : Nat) =>
      dump_member lib (lib.TypeOfHandle handle) (j : Nat) a) =
      fun a j => a ++ member_entry lib (lib.TypeOfHandle handle) j := by
    funext a j
    exact dump_member_eq lib (lib.TypeOfHandle handle) j a
  have hdump : (num_methods lib handle out).1 =
      out ++ (List.range (num_methods lib handle out).2.toNat).flatMap
        (member_entry lib (lib.TypeOfHandle handle)) := by
    rw [hret]
    show for_int _ _ out = _
    rw [for_int_range, hbody, foldl_append_group]
  have hvis : visited ((num_methods lib handle out).1.drop out.length) =
      (List.range (num_methods lib handle out).2.toNat).map Int.ofNat := by
    rw [hdump, List.drop_left]
    exact visited_entries lib (lib.TypeOfHandle handle) _
  refine ⟨hret out, ?_, hdump, hvis, ?_, ?_, ?_⟩
  · intro hsmall
    rw [hret, toInt32_small _ hsmall]
  · rw [hvis]
    simp
  · intro i _
    refine ⟨fun _ _ => rfl, ?_, ?_⟩
    · simp [member_entry]
    · rw [parameter_lines_entry]
      rfl
  · intro out2
    rw [hret, hret]

/-- Witness for C7: class `Base` of the small database has three function
members, and `num_methods` returns 3. -/
theorem num_methods_witness :
    (num_methods demoLib 16 []).2 = 3 :=
  (num_methods_spec demoLib 16 []).2.1 (by decide)

/-! ### The heap -/

/-- Writing the cell right after a run of cells. -/
theorem set_after (pre : List (Option Byte)) (x y : Option Byte) (tail : List (Option Byte)) :
    (pre ++ x :: tail).set pre.length y = pre ++ y :: tail := by
  induction pre with
  | nil => rfl
  | cons a rest ih => simp [ih]

/-- A store into the most recent block, inside its bounds. -/
theorem store_head (p : Ptr) (pre : List (Option Byte)) (x : Option Byte)
    (tail : List (Option Byte)) (hp : Heap) (v : Byte) :
    store ({ base := p, cells := pre ++ x :: tail } :: hp) p pre.length v =
      some ({ base := p, cells := pre ++ some v :: tail } :: hp) := by
  simp [store, set_after]

/-- The copy loop on the most recent block: with `name.length + 1` unwritten
cells ahead it writes the bytes of `name` before the first zero byte and a zero
byte, and stays inside the block. -/
theorem strcpy_from_head (p : Ptr) (hp : Heap) (name : StdString) (pre : List (Option Byte)) :
    strcpy_from p ({ base := p, cells := pre ++ List.replicate (name.length + 1) none } :: hp)
        pre.length (c_str name) =
      some ({ base := p,
              cells := pre ++ ((name.takeWhile (fun c => c ≠ 0)).map some ++ [some 0] ++
                List.replicate (name.length - (name.takeWhile (fun c => c ≠ 0)).length) none) }
            :: hp) := by
  induction name generalizing pre with
  | nil =>
    have h := store_head p pre none [] hp 0
    simp [c_str, strcpy_from, List.replicate, h]
  | cons c rest ih =>
    have h := store_head p pre none (List.replicate (rest.length + 1) none) hp c
    have hrep : List.replicate ((c :: rest).length + 1) (none : Option Byte) =
        none :: List.replicate (rest.length + 1) none := rfl
    rw [hrep]
    by_cases hc : c = 0
    · subst hc
      simp [c_str, strcpy_from, h]
    · have ih2 := ih (pre ++ [some c])
      simp only [List.length_append, List.length_singleton, List.append_assoc,
        List.singleton_append] at ih2
      have hs : c_str (c :: rest) = c :: c_str rest := rfl
      rw [hs, strcpy_from, h]
      simp only [if_neg hc]
      rw [ih2]
      simp [hc]

/-- The cut at the first zero byte keeps a leading non-zero byte. -/
theorem cut_cons_nonzero (c : Byte) (rest : List Byte) (hc : c ≠ 0) :
    (c :: rest).takeWhile (fun c => c ≠ 0) = c :: rest.takeWhile (fun c => c ≠ 0) := by
  have hd : decide (c ≠ 0) = true := by simp [hc]
  simp only [List.takeWhile, hd]

/-- The cut at the first zero byte is empty on a leading zero byte. -/
theorem cut_cons_zero (rest : List Byte) :
    ((0 : Byte) :: rest).takeWhile (fun c => c ≠ 0) = [] := by
  simp [List.takeWhile]

/-- Reading back what the copy loop wrote. -/
theorem read_cstring_copy (name : StdString) (tail : List (Option Byte)) :
    read_cstring ((name.takeWhile (fun c => c ≠ 0)).map some ++ [some 0] ++ tail) =
      some (name.takeWhile (fun c => c ≠ 0)) := by
  induction name with
  | nil => simp [read_cstring]
  | cons c rest ih =>
    by_cases hc : c = 0
    · subst hc
      simp [read_cstring]
    · rw [cut_cons_nonzero c rest hc]
      show read_cstring (some c :: ((rest.takeWhile (fun c => c ≠ 0)).map some ++ [some 0] ++ tail))
        = _
      rw [read_cstring, if_neg hc, ih]

/-- The cut of a string at its first zero byte is a leading part of it. -/
theorem take_takeWhile (name : StdString) :
    name.take (name.takeWhile (fun c => c ≠ 0)).length = name.takeWhile (fun c => c ≠ 0) := by
  induction name with
  | nil => rfl
  | cons c rest ih =>
    by_cases hc : c = 0
    · simp [List.takeWhile, hc]
    · rw [cut_cons_nonzero c rest hc, List.length_cons, List.take_succ_cons, ih]

/-- The cut of a string at its first zero byte is no longer than the string. -/
theorem takeWhile_length_le (name : StdString) :
    (name.takeWhile (fun c => c ≠ 0)).length ≤ name.length := by
  induction name with
  | nil => simp
  | cons c rest ih =>
    by_cases hc : c = 0
    · simp [List.takeWhile, hc]
    · rw [cut_cons_nonzero c rest hc, List.length_cons, List.length_cons]
      omega

/-- Right after the cut comes a zero byte or the end of the string. -/
theorem takeWhile_stops (name : StdString) :
    name[(name.takeWhile (fun c => c ≠ 0)).length]? = some 0 ∨
      (name.takeWhile (fun c => c ≠ 0)).length = name.length := by
  induction name with
  | nil => simp
  | cons c rest ih =>
    by_cases hc : c = 0
    · simp [List.takeWhile, hc]
    · rw [cut_cons_nonzero c rest hc]
      simpa using ih

/-- A string without a zero byte is its own cut. -/
theorem takeWhile_no_zero (name : StdString) (h : (0 : Byte) ∉ name) :
    name.takeWhile (fun c => c ≠ 0) = name := by
  induction name with
  | nil => rfl
  | cons c rest ih =>
    have hc : c ≠ 0 := fun e => h (by simp [e])
    have hr : (0 : Byte) ∉ rest := fun e => h (by simp [e])
    rw [cut_cons_nonzero c rest hc, ih hr]

/-- Releasing an address that is not live is undefined. -/
theorem release_not_live (hp : Heap) (p : Ptr) (h : p ∉ live hp) : release hp p = none := by
  induction hp with
  | nil => rfl
  | cons b rest ih =>
    have hb : b.base ≠ p := fun e => h (by simp [live, e])
    have hr : p ∉ live rest := fun e => h (by simp only [live, List.map_cons] at e ⊢; simp [e])
    simp [release, hb, ih hr]

/-- The shared tail of the string queries, when `malloc` succeeds. -/
theorem copy_name_eq (alloc : Allocator) (name : StdString) (hp : Heap)
    (hok : alloc hp (name.length + 1) ≠ 0) :
    copy_name alloc name hp =
      some (alloc hp (name.length + 1),
        { base := alloc hp (name.length + 1),
          cells := (name.takeWhile (fun c => c ≠ 0)).map some ++ [some 0] ++
            List.replicate (name.length - (name.takeWhile (fun c => c ≠ 0)).length) none }
          :: hp) := by
  have h := strcpy_from_head (alloc hp (name.length + 1)) hp name []
  simp only [List.nil_append, List.length_nil] at h
  simp only [copy_name, malloc, if_neg hok, strcpy, h]

/-- The shared tail of the string queries returns a truncated copy. -/
theorem copy_name_truncated (alloc : Allocator) (name : StdString) (hp : Heap)
    (hok : alloc hp (name.length + 1) ≠ 0) :
    TruncatedCopy name hp (copy_name alloc name hp) := by
  rw [copy_name_eq alloc name hp hok]
  have hread : cstring_at
      ({ base := alloc hp (name.length + 1),
         cells := (name.takeWhile (fun c => c ≠ 0)).map some ++ [some 0] ++
            List.replicate (name.length - (name.takeWhile (fun c => c ≠ 0)).length) none }
          :: hp) (alloc hp (name.length + 1)) = some (name.takeWhile (fun c => c ≠ 0)) := by
    simp only [cstring_at, lookup, if_true]
    exact read_cstring_copy name _
  have hle := takeWhile_length_le name
  refine ⟨_, rfl, ?_, hle, take_takeWhile name, ?_, takeWhile_stops name, ?_, ?_, ?_⟩
  · simp only [List.length_append, List.length_map, List.length_singleton,
      List.length_replicate]
    omega
  · intro c hc
    rw [take_takeWhile] at hc
    have := List.mem_takeWhile_imp hc
    simpa using this
  · rw [take_takeWhile]
  · rw [take_takeWhile]
    exact hread
  · intro h0
    rw [hread, takeWhile_no_zero name h0]

/-- The shared tail of the string queries returns an owned string. -/
theorem copy_name_owned (alloc : Allocator) (name : StdString) (hp : Heap)
    (hok : alloc hp (name.length + 1) ≠ 0) (hfresh : alloc hp (name.length + 1) ∉ live hp) :
    OwnedString hp (copy_name alloc name hp) := by
  rw [copy_name_eq alloc name hp hok]
  refine ⟨hok, hfresh, rfl, ⟨name.takeWhile (fun c => c ≠ 0), ?_⟩, ?_, ?_⟩
  · simp only [cstring_at, lookup, if_true]
    exact read_cstring_copy name _
  · simp [myfree, free, hok, release]
  · simp [myfree, free, hok, release_not_live hp _ hfresh]

/-- The sample placement policy never fails and never reuses a live address. -/
theorem demoAlloc_fresh (hp : Heap) (n : Nat) :
    demoAlloc hp n ≠ 0 ∧ demoAlloc hp n ∉ live hp := by
  have hmax : ∀ l : List Nat, ∀ x ∈ l, x ≤ l.foldr max 0 := by
    intro l
    induction l with
    | nil => simp
    | cons a rest ih =>
      intro x hx
      rcases List.mem_cons.mp hx with h | h
      · subst h
        exact le_max_left _ _
      · exact le_trans (ih x h) (le_max_right _ _)
  refine ⟨by simp [demoAlloc], ?_⟩
  intro hmem
  have := hmax (live hp) _ hmem
  simp only [demoAlloc] at this
  omega

/-- C8. With a `malloc` that succeeds and returns an address that is not a
live block, each of `method_name`, `result_type_method` and `arg_type_method`
returns a pointer that is not null, differs from every block live before the
call (so from every earlier result not yet released), designates a terminated
string, and can be given to `myfree` once, which restores the heap of before the
query, a second `myfree` of it being undefined; and two queries in a row return
different pointers. -/
theorem metadata_strings_owned (lib : ReflexLib) (alloc : Allocator)
    (handle : cppyy_typehandle_t) (method_index arg_index : Int) (hp : Heap)
    (hmalloc : ∀ (h : Heap) (n : Nat), alloc h n ≠ 0 ∧ alloc h n ∉ live h) :
    OwnedString hp (method_name lib alloc handle method_index hp) ∧
    OwnedString hp (result_type_method lib alloc handle method_index hp) ∧
    OwnedString hp (arg_type_method lib alloc handle method_index arg_index hp) ∧
    (∀ p1 hp1, method_name lib alloc handle method_index hp = some (p1, hp1) →
      OwnedString hp1 (result_type_method lib alloc handle method_index hp1) ∧
      ∀ p2 hp2, result_type_method lib alloc handle method_index hp1 = some (p2, hp2) →
        p2 ≠ p1) := by
  refine ⟨?_, ?_, ?_, ?_⟩
  · exact copy_name_owned alloc _ hp (hmalloc hp _).1 (hmalloc hp _).2
  · exact copy_name_owned alloc _ hp (hmalloc hp _).1 (hmalloc hp _).2
  · exact copy_name_owned alloc _ hp (hmalloc hp _).1 (hmalloc hp _).2
  · intro p1 hp1 h1
    have hfirst : OwnedString hp (some (p1, hp1)) := by
      rw [← h1]
      exact copy_name_owned alloc _ hp (hmalloc hp _).1 (hmalloc hp _).2
    have hsecond : OwnedString hp1 (result_type_method lib alloc handle method_index hp1) :=
      copy_name_owned alloc _ hp1 (hmalloc hp1 _).1 (hmalloc hp1 _).2
    refine ⟨hsecond, ?_⟩
    intro p2 hp2 h2 heq
    rw [h2] at hsecond
    have hnot : p2 ∉ live hp1 := hsecond.2.1
    have hlive : live hp1 = p1 :: live hp := hfirst.2.2.1
    rw [hlive, heq] at hnot
    exact hnot (List.mem_cons_self _ _)

/-- Witness for C8: the three queries on member `add` of `Base` in the empty
heap under the sample placement policy. -/
theorem metadata_strings_owned_witness :
    OwnedString [] (method_name demoLib demoAlloc 16 2 []) ∧
    OwnedString [] (result_type_method demoLib demoAlloc 16 2 []) ∧
    OwnedString [] (arg_type_method demoLib demoAlloc 16 2 0 []) ∧
    (∀ p1 hp1, method_name demoLib demoAlloc 16 2 [] = some (p1, hp1) →
      OwnedString hp1 (result_type_method demoLib demoAlloc 16 2 hp1) ∧
      ∀ p2 hp2, result_type_method demoLib demoAlloc 16 2 hp1 = some (p2, hp2) → p2 ≠ p1) :=
  metadata_strings_owned demoLib demoAlloc 16 2 0 [] demoAlloc_fresh

/-- C10. With a `malloc` that succeeds, each of `method_name`,
`result_type_method` and `arg_type_method` returns a block of exactly
`len + 1` cells for a library name of `len` bytes, of which the copy wrote the
first `k + 1`, where `k ≤ len` is the position of the first zero byte of the
name (`len` without one); the copy stays inside the block; and the string at the
returned pointer is the name cut at its first zero byte, the whole name when it
has no zero byte. -/
theorem metadata_strings_truncated (lib : ReflexLib) (alloc : Allocator)
    (handle : cppyy_typehandle_t) (method_index arg_index : Int) (hp : Heap)
    (hmalloc : ∀ n : Nat, alloc hp n ≠ 0) :
    TruncatedCopy
      (lib.MemberName (lib.FunctionMemberAt (lib.TypeOfHandle handle) (toSizeT method_index)))
      hp (method_name lib alloc handle method_index hp) ∧
    TruncatedCopy
      (lib.TypeName
        (lib.ReturnType (lib.TypeOf
          (lib.FunctionMemberAt (lib.TypeOfHandle handle) (toSizeT method_index))))
        (lib.FINAL ||| lib.SCOPED ||| lib.QUALIFIED))
      hp (result_type_method lib alloc handle method_index hp) ∧
    TruncatedCopy
      (lib.TypeName
        (lib.FunctionParameterAt (lib.TypeOf
          (lib.FunctionMemberAt (lib.TypeOfHandle handle) (toSizeT method_index)))
          (toSizeT arg_index))
        (lib.FINAL ||| lib.SCOPED ||| lib.QUALIFIED))
      hp (arg_type_method lib alloc handle method_index arg_index hp) :=
  ⟨copy_name_truncated alloc _ hp (hmalloc _), copy_name_truncated alloc _ hp (hmalloc _),
    copy_name_truncated alloc _ hp (hmalloc _)⟩

/-- Witness for C10: the three queries on member `add` of `Base`, with one
block already live. -/
theorem metadata_strings_truncated_witness :
    TruncatedCopy
      (demoLib.MemberName (demoLib.FunctionMemberAt (demoLib.TypeOfHandle 16) (toSizeT 2)))
      [{ base := 5, cells := [] }] (method_name demoLib demoAlloc 16 2 [{ base := 5, cells := [] }]) ∧
    TruncatedCopy
      (demoLib.TypeName
        (demoLib.ReturnType (demoLib.TypeOf
          (demoLib.FunctionMemberAt (demoLib.TypeOfHandle 16) (toSizeT 2))))
        (demoLib.FINAL ||| demoLib.SCOPED ||| demoLib.QUALIFIED))
      [{ base := 5, cells := [] }]
      (result_type_method demoLib demoAlloc 16 2 [{ base := 5, cells := [] }]) ∧
    TruncatedCopy
      (demoLib.TypeName
        (demoLib.FunctionParameterAt (demoLib.TypeOf
          (demoLib.FunctionMemberAt (demoLib.TypeOfHandle 16) (toSizeT 2)))
          (toSizeT 0))
        (demoLib.FINAL ||| demoLib.SCOPED ||| demoLib.QUALIFIED))
      [{ base := 5, cells := [] }]
      (arg_type_method demoLib demoAlloc 16 2 0 [{ base := 5, cells := [] }]) :=
  metadata_strings_truncated demoLib demoAlloc 16 2 0 [{ base := 5, cells := [] }]
    (fun n => (demoAlloc_fresh _ n).1)

/-- A name with a zero byte in the middle: the block has four cells, the copy
writes two of them, and the string read back is the one byte before the zero. -/
theorem copy_name_embedded_zero :
    copy_name demoAlloc [65, 0, 66] [] =
      some (1, [{ base := 1, cells := [some 65, some 0, none, none] }]) ∧
    cstring_at [{ base := 1, cells := [some 65, some 0, none, none] }] 1 = some [65] := by
  decide

/-- A failed `malloc` makes the string queries undefined: the copy goes through
the null pointer. -/
theorem copy_name_malloc_failure (name : StdString) :
    copy_name (fun _ _ => 0) name [] = none := by
  cases name <;> simp [copy_name, malloc, strcpy, strcpy_from, c_str, store]

/-- A negative count or an array shorter than the count makes the invocation
entry points undefined. -/
theorem arguments_of_undefined (args : List Ptr) (numargs : Int)
    (h : numargs < 0 ∨ args.length < numargs.toNat) : arguments_of args numargs = none := by
  unfold arguments_of
  by_cases hn : numargs < 0
  · rw [if_pos hn]
  · rw [if_neg hn]
    rcases h with h | h
    · exact absurd h hn
    · exact vector_range_none args numargs.toNat h

end Cppyy
